import Mathlib

/-!
Verification of the PyHive Presto SQLAlchemy dialect
(`pyhive/sqlalchemy_presto.py`) against its natural-language
specification.

The Python source is shallowly embedded below: pure helpers become Lean
functions, the DB-API connection is a function from the SQL text of a
query to the engine's response, and Python exceptions become `Except`
values.
-/

set_option maxHeartbeats 1000000
set_option maxRecDepth 8192

namespace PyHivePresto

/-! ## Generic helpers: Python `str.split`, dict semantics -/

/-- Embedding of Python `s.split(sep)` for a one-character separator,
working on the character list of the string.  Python's split of the
empty string yields one empty segment (`[""]`), never an empty list. -/
def pySplit (sep : Char) : List Char → List (List Char)
  | [] => [[]]
  | c :: rest =>
    let r := pySplit sep rest
    if c = sep then [] :: r
    else
      match r with
      | [] => [[c]]
      | h :: t => (c :: h) :: t

/-- Embedding of `url.database.split('/')` from `create_connect_args`. -/
def pySplitStr (s : String) : List String :=
  (pySplit '/' s.data).map (fun l => String.mk l)

/-- Joins path segments with `/`; the inverse of splitting used to
express claims stated over the locator's abstract database path. -/
def joinSlash : List String → String
  | [] => ""
  | [s] => s
  | s :: t :: rest => s ++ "/" ++ joinSlash (t :: rest)

/-- First-match association-list lookup: Python `dict.get` /
`dict[...]` semantics on a representation with unique keys. -/
def alistGet {β : Type} (d : List (String × β)) (k : String) : Option β :=
  match d with
  | [] => none
  | p :: rest => if p.1 = k then some p.2 else alistGet rest k

/-- Python dict values appearing as connection kwargs. -/
inductive PyVal where
  | str : String → PyVal
  | nat : Nat → PyVal
  | none_ : PyVal
deriving DecidableEq

/-- Python `d[k] = v`: replaces the value if the key is present
(keeping its position), appends the pair otherwise. -/
def dictSet (d : List (String × PyVal)) (k : String) (v : PyVal) :
    List (String × PyVal) :=
  if d.any (fun p => p.1 = k) then
    d.map (fun p => if p.1 = k then (k, v) else p)
  else d ++ [(k, v)]

/-- Python `d.update(q)` where the values of `q` are strings: each
entry is written in order, later writes overwriting earlier ones. -/
def dictUpdate (d : List (String × PyVal)) (q : List (String × String)) :
    List (String × PyVal) :=
  q.foldl (fun acc p => dictSet acc p.1 (PyVal.str p.2)) d

/-- The last value written for a key in a key/value sequence. -/
def lastLookup (q : List (String × String)) (k : String) : Option String :=
  match q with
  | [] => none
  | p :: rest =>
    match lastLookup rest k with
    | some v => some v
    | none => if p.1 = k then some p.2 else none

/-! ## Connection-argument builder (`PrestoDialect.create_connect_args`) -/

/-- The fields of the SQLAlchemy URL that `create_connect_args` reads. -/
structure URL where
  host : Option String
  port : Option Nat
  username : Option String
  database : String
  query : List (String × String)

/-- An optional string field of the URL as a kwargs value. -/
def optStr : Option String → PyVal
  | some s => PyVal.str s
  | none => PyVal.none_

/-- An optional numeric field of the URL as a kwargs value. -/
def optNat : Option Nat → PyVal
  | some n => PyVal.nat n
  | none => PyVal.none_

/-- Embedding of `PrestoDialect.create_connect_args`: split the
database on `/`, build the default kwargs, merge the query parameters,
then set catalog (and schema) according to the number of parts, raising
`ValueError` for any other count. -/
def create_connect_args (url : URL) : Except String (List (String × PyVal)) :=
  let db_parts := pySplitStr url.database
  let kwargs := dictUpdate
    [("host", optStr url.host), ("port", optNat url.port),
     ("username", optStr url.username)] url.query
  match db_parts with
  | [c] => Except.ok (dictSet kwargs ("catalog") (PyVal.str c))
  | [c, s] =>
      Except.ok (dictSet (dictSet kwargs ("catalog") (PyVal.str c))
        ("schema") (PyVal.str s))
  | _ => Except.error ("Unexpected database format " ++ url.database)

/-! ## Identifier preparer -/

/-- The set `PrestoIdentifierPreparer.reserved_words`, transcribed verbatim. -/
def reservedWords : List String :=
  ["all", "alter", "and", "approximate", "array", "as", "asc", "at",
   "bernoulli", "between", "bigint", "boolean", "by", "case", "cast",
   "catalog", "catalogs", "char", "character", "coalesce", "columns",
   "confidence", "constraint", "create", "cross", "current",
   "current_date", "current_time", "current_timestamp", "date", "day",
   "dec", "decimal", "desc", "describe", "distinct", "distributed",
   "double", "drop", "else", "end", "escape", "except", "exists",
   "explain", "extract", "false", "first", "following", "for",
   "format", "from", "full", "functions", "graphviz", "group",
   "having", "hour", "if", "in", "inner", "insert", "int", "integer",
   "intersect", "interval", "into", "is", "join", "json",
   "json_extract_scalar", "last", "left", "like", "limit", "localtime",
   "localtimestamp", "logical", "minute", "month", "natural", "not",
   "null", "nullif", "nulls", "number", "numeric", "on", "or", "order",
   "outer", "over", "partition", "partitions", "poissonized",
   "preceding", "range", "recursive", "rename", "replace", "rescaled",
   "right", "row", "rows", "schema", "schemas", "second", "select",
   "show", "stratify", "substring", "system", "table", "tables",
   "tablesample", "text", "then", "time", "timestamp", "to", "true",
   "try_cast", "type", "unbounded", "union", "use", "using", "values",
   "varchar", "varying", "view", "when", "where", "with", "year",
   "zone"]

/-- ASCII lowering, embedding Python `str.lower()` on identifiers. -/
def pyLower (s : String) : String :=
  String.mk (s.data.map Char.toLower)

/-- A character allowed by the preparer's bare-identifier rule
(`[A-Z0-9_$]` case-insensitively). -/
def legalChar (c : Char) : Bool :=
  c.isAlpha || c.isDigit || c = '_' || c = '$'

/-- Modelled collaborator: the inherited SQLAlchemy
`IdentifierPreparer._requires_quotes` as instantiated by
`PrestoIdentifierPreparer` — quote when the lowercased value is a
reserved word, the first character is an illegal initial character, the
value fails the bare-identifier lexical rule, or the value is not
already lowercase. -/
def requiresQuotes (v : String) : Bool :=
  let lc := pyLower v
  reservedWords.contains lc ||
  (match v.data with
   | [] => false
   | c :: _ => c.isDigit || c = '$') ||
  !(!v.data.isEmpty && v.data.all legalChar) ||
  lc != v

/-- Doubles an embedded double-quote character. -/
def escQuote : List Char → List Char
  | [] => []
  | c :: rest =>
    if c = '"' then '"' :: '"' :: escQuote rest else c :: escQuote rest

/-- Modelled collaborator: the inherited SQLAlchemy
`IdentifierPreparer.quote_identifier` — wrap in double quotes, doubling
any embedded double quote. -/
def quote_identifier (v : String) : String :=
  String.mk ('"' :: escQuote v.data ++ ['"'])

/-! ## Custom operator rendering (`PrestoCompiler.visit_json_extract_scalar`) -/

/-- The expression nodes reaching the compiler: a bare column clause, a
literal-rendered value, and the custom `JsonExtractScalar` node with
its column and json-field sub-expressions. -/
inductive SqlExpr where
  | col : String → SqlExpr
  | lit : String → SqlExpr
  | jes : SqlExpr → SqlExpr → SqlExpr

/-- Doubles an embedded single quote, for SQL string literals. -/
def escSq : List Char → List Char
  | [] => []
  | c :: rest =>
    if c = '\'' then '\'' :: '\'' :: escSq rest else c :: escSq rest

/-- The compiler's recursive `_compiler_dispatch`.  Column and literal
rendering are modelled from the inherited SQLAlchemy compiler (a column
clause renders as its name, quoted when the preparer requires it; a
literal renders as a quoted SQL string); the `jes` case is the repo's
`PrestoCompiler.visit_json_extract_scalar`. -/
def render : SqlExpr → String
  | SqlExpr.col name => if requiresQuotes name then quote_identifier name else name
  | SqlExpr.lit s => String.mk ('\'' :: escSq s.data ++ ['\''])
  | SqlExpr.jes c f =>
      "json_extract_scalar(to_json(" ++ render c ++ "), " ++ render f ++ ")"

/-! ## Type map and introspection -/

/-- The semantic SQLAlchemy types appearing in the dialect. -/
inductive SAType where
  | bigInteger : SAType
  | boolean : SAType
  | float : SAType
  | string_ : SAType
  | nullType : SAType
deriving DecidableEq

/-- The module-level `_type_map` dict, transcribed verbatim. -/
def _type_map : List (String × SAType) :=
  [("bigint", SAType.bigInteger), ("boolean", SAType.boolean),
   ("double", SAType.float), ("varchar", SAType.string_)]

/-- A row of the `SHOW COLUMNS` result cursor, with the fields the
dialect reads: `row.Column`, `row.Type`, `row.Null`,
`row['Partition Key']`. -/
structure Row where
  column : String
  type_ : String
  null : Bool
  partitionKey : Bool
deriving DecidableEq

/-- The payload of a `presto.DatabaseError`: `e.message` is either a
dict (modelled by its string entries) or some non-mapping value. -/
inductive ErrPayload where
  | dict : List (String × String) → ErrPayload
  | nonDict : String → ErrPayload
deriving DecidableEq

/-- Embedding of `e.message.get('message') if isinstance(e.message, dict) else None`. -/
def msgOf : ErrPayload → Option String
  | ErrPayload.dict entries => alistGet entries ("message")
  | ErrPayload.nonDict _ => none

/-- What `connection.execute` does for one query: return a row cursor,
raise `presto.DatabaseError` with a payload, or raise some other
exception. -/
inductive ExecResult where
  | rows : List Row → ExecResult
  | dbError : ErrPayload → ExecResult
  | otherError : String → ExecResult

/-- The black-box connection: a response for each SQL text. -/
def Connection : Type := String → ExecResult

/-- The errors `_get_table_columns` can let escape:
`sqlalchemy.exc.NoSuchTableError`, the re-raised `presto.DatabaseError`,
or any other exception propagating through untouched. -/
inductive IntrospectError where
  | noSuchTable : String → IntrospectError
  | dbError : ErrPayload → IntrospectError
  | other : String → IntrospectError
deriving DecidableEq

/-- The characters the regular expression in `_get_table_columns`
requires before the table name. -/
def nstePre : List Char := "Table '".data

/-- The characters the regular expression requires after the table
name. -/
def nsteSuf : List Char := "' does not exist".data

/-- The unique candidate for the text matched by the `.*` part of the
regular expression, determined by the lengths of the fixed parts. -/
def nsteCand (tn s : List Char) : List Char :=
  (s.drop nstePre.length).take
    (s.length - nstePre.length - nsteSuf.length - tn.length)

/-- Whether `^Table\ \'.*<escaped name>\'\ does\ not\ exist$` matches a
string with `$` taken at the very end: the string decomposes as
`Table '` + newline-free text + the table name + `' does not exist`. -/
def nsteCoreB (tn s : List Char) : Bool :=
  decide (s = nstePre ++ nsteCand tn s ++ tn ++ nsteSuf) &&
    (nsteCand tn s).all (fun c => c != '\n')

/-- Truthiness of `re.match(regex, msg)` for the regular expression
built in `_get_table_columns`: in Python, `$` matches at the end of the
string or just before one final newline. -/
def nsteMatchB (tn s : List Char) : Bool :=
  nsteCoreB tn s || ((s.getLast? == some '\n') && nsteCoreB tn s.dropLast)

/-- The query text built by `_get_table_columns`: quote the table name,
prepend the quoted schema and a dot when the schema argument is truthy
(Python `if schema:` — `None` and the empty string are falsy). -/
def showColumnsQuery (tn : String) (schema : Option String) : String :=
  let full := quote_identifier tn
  let full :=
    match schema with
    | some s => if s = "" then full else quote_identifier s ++ "." ++ full
    | none => full
  "SHOW COLUMNS FROM " ++ full

/-- Embedding of `PrestoDialect._get_table_columns`: execute the
`SHOW COLUMNS` query; on `presto.DatabaseError` reclassify as
`NoSuchTableError` when the payload is a dict whose truthy `message`
entry matches the regular expression, otherwise re-raise; let any other
exception propagate. -/
def _get_table_columns (conn : Connection) (tn : String)
    (schema : Option String) : Except IntrospectError (List Row) :=
  match conn (showColumnsQuery tn schema) with
  | ExecResult.rows rs => Except.ok rs
  | ExecResult.dbError p =>
    match msgOf p with
    | some s =>
        if s.data ≠ [] ∧ nsteMatchB tn.data s.data then
          Except.error (IntrospectError.noSuchTable tn)
        else Except.error (IntrospectError.dbError p)
    | none => Except.error (IntrospectError.dbError p)
  | ExecResult.otherError e => Except.error (IntrospectError.other e)

/-- Embedding of `PrestoDialect.has_table`: true when the describe step
succeeds, false on `NoSuchTableError`, anything else propagates. -/
def has_table (conn : Connection) (tn : String) (schema : Option String) :
    Except IntrospectError Bool :=
  match _get_table_columns conn tn schema with
  | Except.ok _ => Except.ok true
  | Except.error (IntrospectError.noSuchTable _) => Except.ok false
  | Except.error e => Except.error e

/-- One result entry of `get_columns`. -/
structure ColumnInfo where
  name : String
  type_ : SAType
  nullable : Bool
  default : Option String
deriving DecidableEq

/-- The warning text `util.warn` receives for an unrecognized type. -/
def warnText (row : Row) : String :=
  "Did not recognize type '" ++ row.type_ ++ "' of column '" ++
    row.column ++ "'"

/-- The body of the `get_columns` loop: look the type up in
`_type_map`, falling back to `NullType` plus a warning on `KeyError`,
and append the column entry. -/
def gcStep (acc : List ColumnInfo × List String) (row : Row) :
    List ColumnInfo × List String :=
  match alistGet _type_map row.type_ with
  | some t =>
      (acc.1 ++ [{ name := row.column, type_ := t, nullable := row.null,
                   default := none }], acc.2)
  | none =>
      (acc.1 ++ [{ name := row.column, type_ := SAType.nullType,
                   nullable := row.null, default := none }],
       acc.2 ++ [warnText row])

/-- Embedding of `PrestoDialect.get_columns` (note the source passes
`None`, not the caller's schema, to `_get_table_columns`).  The second
component collects the warnings emitted by `util.warn`, in order. -/
def get_columns (conn : Connection) (tn : String) (schema : Option String) :
    Except IntrospectError (List ColumnInfo × List String) :=
  match _get_table_columns conn tn none with
  | Except.error e => Except.error e
  | Except.ok rows => Except.ok (rows.foldl gcStep ([], []))

/-- One result entry of `get_indexes`. -/
structure IndexInfo where
  name : String
  column_names : List String
  unique : Bool
deriving DecidableEq

/-- Embedding of `PrestoDialect.get_indexes` (the source passes `None`,
not the caller's schema, to `_get_table_columns`): collect the names of
partition-key columns in row order and synthesize one pseudo-index when
any exist. -/
def get_indexes (conn : Connection) (tn : String) (schema : Option String) :
    Except IntrospectError (List IndexInfo) :=
  match _get_table_columns conn tn none with
  | Except.error e => Except.error e
  | Except.ok rows =>
    let col_names := rows.foldl
      (fun acc row => if row.partitionKey then acc ++ [row.column] else acc) []
    if col_names ≠ [] then
      Except.ok [{ name := "partition", column_names := col_names,
                   unique := false }]
    else Except.ok []

end PyHivePresto


namespace PyHivePresto

/-! ## Dictionary lemmas -/

theorem alistGet_cons {β : Type} (p : String × β) (rest : List (String × β))
    (k : String) :
    alistGet (p :: rest) k = if p.1 = k then some p.2 else alistGet rest k :=
  rfl

theorem alistGet_map_set_ne {d : List (String × PyVal)} {k k2 : String}
    {v : PyVal} (h : k2 ≠ k) :
    alistGet (d.map (fun p => if p.1 = k then (k, v) else p)) k2 =
      alistGet d k2 := by
  induction d with
  | nil => rfl
  | cons p rest ih =>
    by_cases hp : p.1 = k
    · rw [List.map_cons, if_pos hp, alistGet_cons, alistGet_cons,
        if_neg (fun hkk2 : (k, v).1 = k2 => h hkk2.symm),
        if_neg (fun hpk2 : p.1 = k2 => h (hpk2.symm.trans hp))]
      exact ih
    · rw [List.map_cons, if_neg hp, alistGet_cons, alistGet_cons]
      by_cases h3 : p.1 = k2
      · rw [if_pos h3, if_pos h3]
      · rw [if_neg h3, if_neg h3]
        exact ih

theorem alistGet_map_set {d : List (String × PyVal)} {k k2 : String}
    {v : PyVal} (hmem : ∃ p ∈ d, p.1 = k) :
    alistGet (d.map (fun p => if p.1 = k then (k, v) else p)) k2 =
      if k2 = k then some v else alistGet d k2 := by
  by_cases h2 : k2 = k
  · subst h2
    rw [if_pos rfl]
    induction d with
    | nil => simp at hmem
    | cons p rest ih =>
      by_cases hp : p.1 = k2
      · rw [List.map_cons, if_pos hp, alistGet_cons, if_pos rfl]
      · rw [List.map_cons, if_neg hp, alistGet_cons, if_neg hp]
        refine ih ?_
        rcases hmem with ⟨q, hq, hqk⟩
        rcases List.mem_cons.mp hq with hqp | hqrest
        · exact absurd (hqp ▸ hqk) hp
        · exact ⟨q, hqrest, hqk⟩
  · rw [if_neg h2]
    exact alistGet_map_set_ne h2

theorem alistGet_append_single {d : List (String × PyVal)} {k k2 : String}
    {v : PyVal} (hnone : ∀ p ∈ d, p.1 ≠ k) :
    alistGet (d ++ [(k, v)]) k2 = if k2 = k then some v else alistGet d k2 := by
  induction d with
  | nil =>
    rw [List.nil_append, alistGet_cons]
    by_cases h2 : k2 = k
    · rw [if_pos h2.symm, if_pos h2]
    · rw [if_neg (fun hk : (k, v).1 = k2 => h2 hk.symm), if_neg h2]
  | cons p rest ih =>
    have hp : p.1 ≠ k := hnone p (List.mem_cons_self p rest)
    have hrest : ∀ q ∈ rest, q.1 ≠ k :=
      fun q hq => hnone q (List.mem_cons_of_mem p hq)
    rw [List.cons_append, alistGet_cons, alistGet_cons]
    by_cases h3 : p.1 = k2
    · rw [if_pos h3, if_pos h3, if_neg (fun h2 : k2 = k => hp (h3.trans h2))]
    · rw [if_neg h3, if_neg h3, ih hrest]

theorem alistGet_dictSet (d : List (String × PyVal)) (k k2 : String)
    (v : PyVal) :
    alistGet (dictSet d k v) k2 = if k2 = k then some v else alistGet d k2 := by
  unfold dictSet
  by_cases hany : ∃ p ∈ d, p.1 = k
  · rw [if_pos ?_]
    · exact alistGet_map_set hany
    · rcases hany with ⟨p, hp, hpk⟩
      exact List.any_eq_true.mpr ⟨p, hp, by simp [hpk]⟩
  · rw [if_neg ?_]
    · refine alistGet_append_single fun p hp hpk => hany ⟨p, hp, hpk⟩
    · intro hc
      rcases List.any_eq_true.mp hc with ⟨p, hp, hpk⟩
      exact hany ⟨p, hp, of_decide_eq_true hpk⟩

theorem alistGet_dictUpdate (d : List (String × PyVal))
    (q : List (String × String)) (k : String) :
    alistGet (dictUpdate d q) k =
      match lastLookup q k with
      | some v => some (PyVal.str v)
      | none => alistGet d k := by
  induction q generalizing d with
  | nil => rfl
  | cons p rest ih =>
    show alistGet (dictUpdate (dictSet d p.1 (PyVal.str p.2)) rest) k = _
    rw [ih]
    cases hrest : lastLookup rest k with
    | some v => simp only [lastLookup, hrest]
    | none =>
      simp only [lastLookup, hrest, alistGet_dictSet]
      by_cases h2 : p.1 = k
      · rw [if_pos h2, if_pos h2.symm]
      · rw [if_neg h2, if_neg (fun hk : k = p.1 => h2 hk.symm)]


/-! ## Loop lemmas -/

theorem foldl_if_append {α β : Type} (p : α → Bool) (f : α → β) :
    ∀ (l : List α) (init : List β),
      l.foldl (fun acc x => if p x then acc ++ [f x] else acc) init =
        init ++ (l.filter p).map f := by
  intro l
  induction l with
  | nil => intro init; simp
  | cons x rest ih =>
    intro init
    by_cases hx : p x
    · simp [List.foldl_cons, hx, ih, List.filter_cons]
    · simp [List.foldl_cons, hx, ih, List.filter_cons]

/-- The column entry `get_columns` builds for one row. -/
def colOf (row : Row) : ColumnInfo :=
  { name := row.column,
    type_ := (alistGet _type_map row.type_).getD SAType.nullType,
    nullable := row.null, default := none }

/-- Whether the row type misses the type map (the `KeyError` branch). -/
def unknownType (row : Row) : Bool :=
  (alistGet _type_map row.type_).isNone

theorem gcStep_eq (acc : List ColumnInfo × List String) (row : Row) :
    gcStep acc row =
      (acc.1 ++ [colOf row],
       acc.2 ++ if unknownType row then [warnText row] else []) := by
  unfold gcStep colOf unknownType
  cases h : alistGet _type_map row.type_ with
  | some t => simp [h]
  | none => simp [h]

theorem gc_foldl (rows : List Row) :
    ∀ acc : List ColumnInfo × List String,
      rows.foldl gcStep acc =
        (acc.1 ++ rows.map colOf,
         acc.2 ++ (rows.filter unknownType).map warnText) := by
  induction rows with
  | nil => intro acc; simp
  | cons row rest ih =>
    intro acc
    rw [List.foldl_cons, gcStep_eq, ih]
    by_cases h : unknownType row
    · simp [h, List.filter_cons]
    · simp [h, List.filter_cons]

/-! ## Split lemmas -/

theorem pySplit_ne_nil (sep : Char) (s : List Char) : pySplit sep s ≠ [] := by
  induction s with
  | nil => simp [pySplit]
  | cons c rest ih =>
    unfold pySplit
    by_cases hc : c = sep
    · simp [hc]
    · simp only [if_neg hc]
      cases h : pySplit sep rest with
      | nil => exact absurd h ih
      | cons hd tl => simp

theorem pySplit_length_pos (sep : Char) (s : List Char) :
    1 ≤ (pySplit sep s).length := by
  cases h : pySplit sep s with
  | nil => exact absurd h (pySplit_ne_nil sep s)
  | cons hd tl => simp

theorem pySplit_no_sep {sep : Char} {a : List Char} (h : sep ∉ a) :
    pySplit sep a = [a] := by
  induction a with
  | nil => rfl
  | cons c rest ih =>
    have hc : c ≠ sep := fun hcs => h (hcs ▸ List.mem_cons_self c rest)
    have hrest : sep ∉ rest := fun hm => h (List.mem_cons_of_mem c hm)
    unfold pySplit
    rw [if_neg hc, ih hrest]

theorem pySplit_append {sep : Char} {a : List Char} (b : List Char)
    (h : sep ∉ a) :
    pySplit sep (a ++ sep :: b) = a :: pySplit sep b := by
  induction a with
  | nil =>
    show pySplit sep (sep :: b) = [] :: pySplit sep b
    simp [pySplit]
  | cons c rest ih =>
    have hc : c ≠ sep := fun hcs => h (hcs ▸ List.mem_cons_self c rest)
    have hrest : sep ∉ rest := fun hm => h (List.mem_cons_of_mem c hm)
    show pySplit sep (c :: (rest ++ sep :: b)) = (c :: rest) :: pySplit sep b
    simp [pySplit, hc, ih hrest]

theorem string_data_append (a b : String) : (a ++ b).data = a.data ++ b.data := by
  cases a
  cases b
  rfl

theorem string_mk_data (s : String) : String.mk s.data = s := by
  cases s
  rfl

theorem joinSlash_data_cons (s t : String) (rest : List String) :
    (joinSlash (s :: t :: rest)).data =
      s.data ++ '/' :: (joinSlash (t :: rest)).data := by
  show (s ++ "/" ++ joinSlash (t :: rest)).data = _
  rw [string_data_append, string_data_append, List.append_assoc]
  rfl

theorem pySplit_joinSlash :
    ∀ (segs : List String), segs ≠ [] →
      (∀ x ∈ segs, ('/' : Char) ∉ x.data) →
      pySplit '/' (joinSlash segs).data = segs.map String.data := by
  intro segs
  induction segs with
  | nil => intro h; exact absurd rfl h
  | cons s rest ih =>
    intro _ hfree
    have hs : ('/' : Char) ∉ s.data := hfree s (List.mem_cons_self s rest)
    cases rest with
    | nil =>
      show pySplit '/' s.data = [s.data]
      exact pySplit_no_sep hs
    | cons t rest2 =>
      rw [joinSlash_data_cons, pySplit_append _ hs,
        ih (by simp) (fun x hx => hfree x (List.mem_cons_of_mem s hx))]
      rfl

theorem pySplitStr_joinSlash (segs : List String) (hne : segs ≠ [])
    (hfree : ∀ x ∈ segs, ('/' : Char) ∉ x.data) :
    pySplitStr (joinSlash segs) = segs := by
  unfold pySplitStr
  rw [pySplit_joinSlash segs hne hfree, List.map_map]
  have : (fun l => String.mk l) ∘ String.data = id := by
    funext s
    exact string_mk_data s
  rw [this, List.map_id]


/-! ## The missing-table regular expression -/

/-- The language of the regular expression
`^Table\ \'.*<escaped name>\'\ does\ not\ exist$` under Python
semantics: fixed prefix, any newline-free text, the exact table name,
fixed suffix, and (because `$` also matches just before one final
newline) an optional single trailing newline. -/
def nsteLang (tn s : List Char) : Prop :=
  ∃ mid tail, s = nstePre ++ mid ++ tn ++ nsteSuf ++ tail ∧
    ('\n' ∉ mid) ∧ (tail = [] ∨ tail = ['\n'])

theorem nsteCoreB_iff (tn s : List Char) :
    nsteCoreB tn s = true ↔
      ∃ mid, s = nstePre ++ mid ++ tn ++ nsteSuf ∧ '\n' ∉ mid := by
  constructor
  · intro h
    rw [nsteCoreB, Bool.and_eq_true] at h
    obtain ⟨h1, h2⟩ := h
    refine ⟨nsteCand tn s, of_decide_eq_true h1, ?_⟩
    intro hmem
    have := List.all_eq_true.mp h2 _ hmem
    simp at this
  · rintro ⟨mid, rfl, hmid⟩
    have hcand : nsteCand tn (nstePre ++ mid ++ tn ++ nsteSuf) = mid := by
      have hlen : (nstePre ++ mid ++ tn ++ nsteSuf).length - nstePre.length -
          nsteSuf.length - tn.length = mid.length := by
        simp only [List.length_append]
        omega
      rw [nsteCand, hlen, List.append_assoc, List.append_assoc,
        List.drop_left, List.take_left]
    rw [nsteCoreB, hcand, Bool.and_eq_true]
    refine ⟨decide_eq_true rfl, List.all_eq_true.mpr fun c hc => ?_⟩
    simp only [bne_iff_ne, ne_eq, decide_eq_true_eq]
    intro hcn
    exact hmid (hcn ▸ hc)

theorem nsteMatchB_iff (tn s : List Char) :
    nsteMatchB tn s = true ↔ nsteLang tn s := by
  rw [nsteMatchB, Bool.or_eq_true, Bool.and_eq_true]
  constructor
  · rintro (h | ⟨hlast, hcore⟩)
    · obtain ⟨mid, hs, hmid⟩ := (nsteCoreB_iff tn s).mp h
      exact ⟨mid, [], by rw [hs]; simp, hmid, Or.inl rfl⟩
    · have hl : s.getLast? = some '\n' := by
        rw [← beq_iff_eq (a := s.getLast?)]
        exact hlast
      obtain ⟨mid, hdrop, hmid⟩ := (nsteCoreB_iff tn s.dropLast).mp hcore
      have hs : s.dropLast ++ ['\n'] = s :=
        List.dropLast_append_getLast? '\n' (by simp [hl])
      refine ⟨mid, ['\n'], ?_, hmid, Or.inr rfl⟩
      rw [← hs, hdrop]
  · rintro ⟨mid, tail, rfl, hmid, (rfl | rfl)⟩
    · left
      apply (nsteCoreB_iff _ _).mpr
      exact ⟨mid, by simp, hmid⟩
    · right
      constructor
      · simp [List.getLast?_concat]
      · rw [List.dropLast_concat]
        apply (nsteCoreB_iff _ _).mpr
        exact ⟨mid, rfl, hmid⟩

/-- A `nsteLang` decomposition forces at least the fixed parts, so the
matched message is never the empty string (the Python truthiness guard
`if msg and ...` is subsumed). -/
theorem nsteLang_ne_nil {tn s : List Char} (h : nsteLang tn s) : s ≠ [] := by
  rcases h with ⟨mid, tail, rfl, -, -⟩
  simp [nstePre]


/-! ## Claims -/

/-- C3: for every table name and schema, `has_table` returns true when
the internal describe-columns step completes without raising, returns
false exactly when that step raises the `NoSuchTableError` signal, and
propagates every other error to its caller unchanged. -/
theorem c3_has_table_classification (conn : Connection) (tn : String)
    (schema : Option String) :
    (∀ rs, _get_table_columns conn tn schema = Except.ok rs →
      has_table conn tn schema = Except.ok true) ∧
    (∀ x, _get_table_columns conn tn schema =
        Except.error (IntrospectError.noSuchTable x) →
      has_table conn tn schema = Except.ok false) ∧
    (∀ e, _get_table_columns conn tn schema = Except.error e →
      (∀ x, e ≠ IntrospectError.noSuchTable x) →
      has_table conn tn schema = Except.error e) := by
  refine ⟨?_, ?_, ?_⟩
  · intro rs h
    unfold has_table
    rw [h]
  · intro x h
    unfold has_table
    rw [h]
  · intro e h hne
    unfold has_table
    rw [h]
    cases e with
    | noSuchTable x => exact absurd rfl (hne x)
    | dbError p => rfl
    | other m => rfl

/-- The connection of the `has_table` witness: every query succeeds
with an empty cursor. -/
def c3conn : Connection := fun _ => ExecResult.rows []

/-- Witness for C3 at a concrete connection. -/
theorem c3_witness : has_table c3conn ("t") none = Except.ok true :=
  (c3_has_table_classification c3conn "t" none).1 [] rfl

/-- C5: `get_indexes` returns an empty sequence when no result row of
the internal describe-columns step carries the partition-key flag, and
otherwise exactly one index descriptor named "partition", not unique,
listing the flagged columns' names in row order. -/
theorem c5_get_indexes_partition (conn : Connection) (tn : String)
    (schema : Option String) (rows : List Row)
    (h : _get_table_columns conn tn none = Except.ok rows) :
    ((rows.filter fun r => r.partitionKey) = [] →
      get_indexes conn tn schema = Except.ok []) ∧
    ((rows.filter fun r => r.partitionKey) ≠ [] →
      get_indexes conn tn schema = Except.ok
        [{ name := "partition",
           column_names := (rows.filter fun r => r.partitionKey).map
             (fun r => r.column),
           unique := false }]) := by
  have hfold : rows.foldl
      (fun acc row => if row.partitionKey then acc ++ [row.column] else acc)
      [] = (rows.filter fun r => r.partitionKey).map (fun r => r.column) := by
    have := foldl_if_append (fun r : Row => r.partitionKey)
      (fun r : Row => r.column) rows []
    simpa using this
  constructor
  · intro hemp
    simp [get_indexes, h, hfold, hemp]
  · intro hne
    have hmapne : (rows.filter fun r => r.partitionKey).map
        (fun r => r.column) ≠ [] := by
      simp only [ne_eq, List.map_eq_nil_iff]
      exact hne
    simp only [get_indexes, h, hfold, if_pos hmapne]

/-- The rows of the `get_indexes` witness: two partitioned columns. -/
def c5rows : List Row :=
  [{ column := "dt", type_ := "varchar", null := true, partitionKey := true },
   { column := "region", type_ := "varchar", null := true,
     partitionKey := true }]

/-- The connection of the `get_indexes` witness. -/
def c5conn : Connection := fun _ => ExecResult.rows c5rows

/-- Witness for C5: partitioned columns `dt`, `region` yield the single
pseudo-index in that order. -/
theorem c5_witness : get_indexes c5conn ("t") none = Except.ok
    [{ name := "partition", column_names := ["dt", "region"],
       unique := false }] :=
  (c5_get_indexes_partition c5conn "t" none c5rows rfl).2 (by decide)

/-- C6: the type mapper is the exact case-sensitive four-entry table,
and for a raw type outside it `get_columns` does not fail: the column
gets the null semantic type, a warning is recorded, and every row still
produces a column entry. -/
theorem c6_type_map_unknown_warns :
    (alistGet _type_map ("bigint") = some SAType.bigInteger ∧
     alistGet _type_map ("boolean") = some SAType.boolean ∧
     alistGet _type_map ("double") = some SAType.float ∧
     alistGet _type_map ("varchar") = some SAType.string_ ∧
     ∀ t : String, t ≠ "bigint" → t ≠ "boolean" → t ≠ "double" →
       t ≠ "varchar" → alistGet _type_map t = none) ∧
    ∀ (conn : Connection) (tn : String) (schema : Option String)
      (rows : List Row),
      _get_table_columns conn tn none = Except.ok rows →
      ∃ (cols : List ColumnInfo) (warns : List String),
        get_columns conn tn schema = Except.ok (cols, warns) ∧
        cols.length = rows.length ∧
        ∀ (i : Nat) (row : Row), rows[i]? = some row →
          alistGet _type_map row.type_ = none →
          ∃ col : ColumnInfo, cols[i]? = some col ∧ col.name = row.column ∧
            col.type_ = SAType.nullType ∧ warnText row ∈ warns := by
  constructor
  · refine ⟨by decide, by decide, by decide, by decide, ?_⟩
    intro t h1 h2 h3 h4
    simp only [_type_map, alistGet]
    rw [if_neg (fun h => h1 h.symm), if_neg (fun h => h2 h.symm),
      if_neg (fun h => h3 h.symm), if_neg (fun h => h4 h.symm)]
  · intro conn tn schema rows h
    refine ⟨rows.map colOf, (rows.filter unknownType).map warnText, ?_,
      by simp, ?_⟩
    · simp only [get_columns, h, gc_foldl]
      simp
    · intro i row hrow hun
      refine ⟨colOf row, ?_, rfl, ?_, ?_⟩
      · rw [List.getElem?_map, hrow]
        rfl
      · simp [colOf, hun]
      · apply List.mem_map_of_mem
        apply List.mem_filter.mpr
        refine ⟨?_, by simp [unknownType, hun]⟩
        rcases List.getElem?_eq_some.mp hrow with ⟨hi, rfl⟩
        exact List.getElem_mem hi

/-- The rows of the `get_columns` witness: one column of a type the
map does not know. -/
def c6rows : List Row :=
  [{ column := "c1", type_ := "map<varchar,varchar>", null := true,
     partitionKey := false }]

/-- The connection of the `get_columns` witness. -/
def c6conn : Connection := fun _ => ExecResult.rows c6rows

/-- Witness for C6 at a concrete connection whose single column has an
unrecognized type. -/
theorem c6_witness :
    ∃ (cols : List ColumnInfo) (warns : List String),
      get_columns c6conn ("tbl") none = Except.ok (cols, warns) ∧
      cols.length = c6rows.length ∧
      ∀ (i : Nat) (row : Row), c6rows[i]? = some row →
        alistGet _type_map row.type_ = none →
        ∃ col : ColumnInfo, cols[i]? = some col ∧ col.name = row.column ∧
          col.type_ = SAType.nullType ∧ warnText row ∈ warns :=
  c6_type_map_unknown_warns.2 c6conn "tbl" none c6rows rfl

/-- C7: rendering the custom-operator node produces exactly
`json_extract_scalar(to_json(<column sql>), <field sql>)` with the two
placeholders produced by recursively rendering the sub-expressions; in
particular column `data` with field literal `$.field` renders as
`json_extract_scalar(to_json(data), '$.field')`. -/
theorem c7_render_json_extract_scalar :
    (∀ c f : SqlExpr, render (SqlExpr.jes c f) =
      "json_extract_scalar(to_json(" ++ render c ++ "), " ++
        render f ++ ")") ∧
    render (SqlExpr.jes (SqlExpr.col ("data")) (SqlExpr.lit ("$.field"))) =
      "json_extract_scalar(to_json(data), '$.field')" :=
  ⟨fun _ _ => rfl, by decide⟩

/-- C8: `json_extract_scalar` is in the dialect's reserved-word set,
every identifier in that set needs quoting, and the non-keyword
lowercase bare identifier `orders` does not. -/
theorem c8_reserved_word_quoting :
    ("json_extract_scalar" ∈ reservedWords) ∧
    (∀ w, w ∈ reservedWords → requiresQuotes w = true) ∧
    requiresQuotes ("orders") = false :=
  ⟨by decide, by decide, by decide⟩

/-- Witness for C8 at the concrete reserved word `select`. -/
theorem c8_witness :
    ("select" ∈ reservedWords) ∧ requiresQuotes ("select") = true :=
  ⟨by decide, c8_reserved_word_quoting.2.1 "select" (by decide)⟩


/-- C9: merging the locator's query parameters into the connection
kwargs is last-write-wins on key collision: a query parameter sharing a
key with one of the defaults (host, port, username) replaces the
default, and for every colliding key not later overwritten by the
catalog/schema assignment the value written last is the one present. -/
theorem c9_query_params_override (url : URL) (kw : List (String × PyVal))
    (hok : create_connect_args url = Except.ok kw) :
    (∀ k v, k ∈ ["host", "port", "username"] →
      lastLookup url.query k = some v →
      alistGet kw k = some (PyVal.str v)) ∧
    (∀ k v, k ∉ ["catalog", "schema"] →
      lastLookup url.query k = some v →
      alistGet kw k = some (PyVal.str v)) := by
  have main : ∀ k v, k ≠ "catalog" → k ≠ "schema" →
      lastLookup url.query k = some v →
      alistGet kw k = some (PyVal.str v) := by
    intro k v hkc hks hlast
    simp only [create_connect_args] at hok
    split at hok
    · injection hok with h
      rw [← h, alistGet_dictSet, if_neg hkc, alistGet_dictUpdate, hlast]
    · injection hok with h
      rw [← h, alistGet_dictSet, if_neg hks, alistGet_dictSet, if_neg hkc,
        alistGet_dictUpdate, hlast]
    · exact absurd hok (by simp)
  constructor
  · intro k v hk hlast
    have hk2 : k = "host" ∨ k = "port" ∨ k = "username" := by
      simpa using hk
    rcases hk2 with rfl | rfl | rfl
    · exact main _ v (by decide) (by decide) hlast
    · exact main _ v (by decide) (by decide) hlast
    · exact main _ v (by decide) (by decide) hlast
  · intro k v hk hlast
    refine main k v ?_ ?_ hlast
    · intro h
      exact hk (by rw [h]; simp)
    · intro h
      exact hk (by rw [h]; simp)

/-- The locator of the C9 witness: its query parameters collide with
the host and port defaults. -/
def c9url : URL :=
  { host := some "h", port := some 8080, username := none,
    database := "hive", query := [("host", "override"), ("port", "9090")] }

/-- The kwargs `create_connect_args` produces for `c9url`. -/
def c9kw : List (String × PyVal) :=
  [("host", PyVal.str "override"), ("port", PyVal.str "9090"),
   ("username", PyVal.none_), ("catalog", PyVal.str "hive")]

/-- Witness for C9: the colliding query parameters win over the host
and port defaults. -/
theorem c9_witness :
    alistGet c9kw ("host") = some (PyVal.str "override") ∧
    alistGet c9kw ("port") = some (PyVal.str "9090") :=
  ⟨(c9_query_params_override c9url c9kw rfl).1 "host" "override"
      (by decide) rfl,
   (c9_query_params_override c9url c9kw rfl).2 "port" "9090"
      (by decide) rfl⟩

/-- C10: splitting the database string always yields at least one
segment, every successful `create_connect_args` result carries a
`catalog` key, and an empty database string produces catalog set to the
empty string rather than an absent catalog. -/
theorem c10_catalog_always_present :
    (∀ db : String, 1 ≤ (pySplitStr db).length) ∧
    (∀ (url : URL) (kw : List (String × PyVal)),
      create_connect_args url = Except.ok kw →
      ∃ v, alistGet kw ("catalog") = some v) ∧
    (∃ kw, create_connect_args
        { host := none, port := none, username := none, database := "",
          query := [] } = Except.ok kw ∧
      alistGet kw ("catalog") = some (PyVal.str "")) := by
  refine ⟨?_, ?_, ?_⟩
  · intro db
    have := pySplit_length_pos '/' db.data
    simpa [pySplitStr] using this
  · intro url kw hok
    simp only [create_connect_args] at hok
    split at hok
    · injection hok with h
      rw [← h, alistGet_dictSet, if_pos rfl]
      exact ⟨_, rfl⟩
    · injection hok with h
      rw [← h, alistGet_dictSet, if_neg (by decide), alistGet_dictSet,
        if_pos rfl]
      exact ⟨_, rfl⟩
    · exact absurd hok (by simp)
  · exact ⟨[("host", PyVal.none_), ("port", PyVal.none_),
      ("username", PyVal.none_), ("catalog", PyVal.str "")], rfl, rfl⟩

/-- Witness for C10 at a concrete locator. -/
theorem c10_witness :
    ∃ v, alistGet
      [("host", PyVal.none_), ("port", PyVal.none_),
       ("username", PyVal.none_), ("catalog", PyVal.str "hive")]
      ("catalog") = some v :=
  c10_catalog_always_present.2.1
    { host := none, port := none, username := none, database := "hive",
      query := [] }
    [("host", PyVal.none_), ("port", PyVal.none_),
     ("username", PyVal.none_), ("catalog", PyVal.str "hive")] rfl


/-- C1 as stated: the reclassification to `NoSuchTableError` happens
exactly on an anchored full-string match of
`Table \'<exact table name>\' does not exist`, and every payload not of
that shape re-raises the original error unchanged. -/
def c1AsStated : Prop :=
  ∀ (tn : String) (p : ErrPayload) (conn : Connection)
    (schema : Option String),
    conn (showColumnsQuery tn schema) = ExecResult.dbError p →
    ((_get_table_columns conn tn schema =
        Except.error (IntrospectError.noSuchTable tn)) ↔
      msgOf p = some ("Table \'" ++ tn ++ "\' does not exist")) ∧
    (msgOf p ≠ some ("Table \'" ++ tn ++ "\' does not exist") →
      _get_table_columns conn tn schema =
        Except.error (IntrospectError.dbError p))

/-- The payload refuting C1 as stated: the quoted name carries a
schema qualifier in front of the exact table name, which the `.*` in
the source regular expression accepts. -/
def c1pay : ErrPayload :=
  ErrPayload.dict
    [("message", "Table \'other_schema.missing_tbl\' does not exist")]

/-- The connection of the C1 counterexample. -/
def c1conn : Connection := fun _ => ExecResult.dbError c1pay

/-- C1 counterexample: for table `missing_tbl` and payload message
`Table \'other_schema.missing_tbl\' does not exist` — not a full-string
match of `Table \'missing_tbl\' does not exist` — the code still
reclassifies to `NoSuchTableError` instead of re-raising. -/
theorem c1_counterexample : ¬ c1AsStated := by
  intro hC
  have h := (hC "missing_tbl" c1pay c1conn none rfl).2 (by decide)
  have h2 : _get_table_columns c1conn "missing_tbl" none =
      Except.error (IntrospectError.noSuchTable "missing_tbl") := rfl
  rw [h2] at h
  injection h with h3
  exact IntrospectError.noConfusion h3

/-- C1 (amended): the error is reclassified as `NoSuchTableError`
exactly when the payload is a mapping whose truthy message entry lies
in the language `Table \'<any newline-free text><exact table
name>\' does not exist`, optionally followed by one trailing newline
(the Python `$`); every other payload — wrong text, trailing text other
than one newline, missing message entry, or a non-mapping payload —
re-raises the original error unchanged. -/
theorem c1_amended_reclassification (tn : String) (p : ErrPayload)
    (conn : Connection) (schema : Option String)
    (hconn : conn (showColumnsQuery tn schema) = ExecResult.dbError p) :
    ((_get_table_columns conn tn schema =
        Except.error (IntrospectError.noSuchTable tn)) ↔
      ∃ s, msgOf p = some s ∧ nsteLang tn.data s.data) ∧
    ((¬ ∃ s, msgOf p = some s ∧ nsteLang tn.data s.data) →
      _get_table_columns conn tn schema =
        Except.error (IntrospectError.dbError p)) := by
  cases hm : msgOf p with
  | none =>
    simp only [_get_table_columns, hconn, hm]
    constructor
    · constructor
      · intro h
        injection h with h2
        exact IntrospectError.noConfusion h2
      · rintro ⟨s2, hs2, -⟩
        exact Option.noConfusion hs2
    · intro _
      trivial
  | some s =>
    simp only [_get_table_columns, hconn, hm]
    by_cases hif : s.data ≠ [] ∧ nsteMatchB tn.data s.data = true
    · rw [if_pos hif]
      constructor
      · constructor
        · intro _
          exact ⟨s, rfl, (nsteMatchB_iff _ _).mp hif.2⟩
        · intro _
          rfl
      · intro hno
        exact absurd ⟨s, rfl, (nsteMatchB_iff _ _).mp hif.2⟩ hno
    · rw [if_neg hif]
      constructor
      · constructor
        · intro h
          injection h with h2
          exact IntrospectError.noConfusion h2
        · rintro ⟨s2, hs2, hlang⟩
          injection hs2 with he
          subst he
          exact absurd ⟨nsteLang_ne_nil hlang, (nsteMatchB_iff _ _).mpr hlang⟩
            hif
      · intro _
        rfl

/-- The payload of the C1 witness: the exact-match message. -/
def c1wpay : ErrPayload :=
  ErrPayload.dict [("message", "Table \'missing_tbl\' does not exist")]

/-- The connection of the C1 witness. -/
def c1wconn : Connection := fun _ => ExecResult.dbError c1wpay

/-- Witness for the amended C1 at the exact-match message. -/
theorem c1_witness :
    _get_table_columns c1wconn ("missing_tbl") none =
      Except.error (IntrospectError.noSuchTable "missing_tbl") :=
  (c1_amended_reclassification "missing_tbl" c1wpay c1wconn none rfl).1.mpr
    ⟨"Table \'missing_tbl\' does not exist", rfl,
     ⟨[], [], by decide, by decide, Or.inl rfl⟩⟩


/-- C2 as stated: `get_columns`, `get_indexes` and `has_table` all
issue the same internal describe-columns query, schema-qualified when a
schema is given — stated observationally: each operation's result
depends only on the connection's response at that one query. -/
def c2AsStated : Prop :=
  ∀ (tn : String) (schema : Option String) (conn₁ conn₂ : Connection),
    conn₁ (showColumnsQuery tn schema) = conn₂ (showColumnsQuery tn schema) →
    has_table conn₁ tn schema = has_table conn₂ tn schema ∧
    get_columns conn₁ tn schema = get_columns conn₂ tn schema ∧
    get_indexes conn₁ tn schema = get_indexes conn₂ tn schema

/-- A connection answering the unqualified describe query with one
partitioned column and every other query with an empty cursor. -/
def c2conn1 : Connection := fun q =>
  if q = showColumnsQuery "t" none then
    ExecResult.rows
      [{ column := "pk", type_ := "varchar", null := true,
         partitionKey := true }]
  else ExecResult.rows []

/-- A connection answering every query with an empty cursor. -/
def c2conn2 : Connection := fun _ => ExecResult.rows []

/-- C2 counterexample: with a schema given, `c2conn1` and `c2conn2`
agree on the schema-qualified describe query, yet `get_indexes` — which
issues the unqualified query because the source passes `None` —
distinguishes them. -/
theorem c2_counterexample : ¬ c2AsStated := by
  intro hC
  have h := (hC "t" (some "s") c2conn1 c2conn2 rfl).2.2
  have e1 : get_indexes c2conn1 "t" (some "s") = Except.ok
      [{ name := "partition", column_names := ["pk"], unique := false }] :=
    rfl
  have e2 : get_indexes c2conn2 "t" (some "s") = Except.ok [] := rfl
  rw [e1, e2] at h
  injection h with h2
  exact List.cons_ne_nil _ _ h2

/-- C2 (amended): `has_table` issues the describe-columns query
schema-qualified when a nonempty schema is given, but `get_columns` and
`get_indexes` always issue the unqualified query (the source passes
`None` instead of the caller's schema); the qualified form is quoted
schema, a dot, then the quoted table name. -/
theorem c2_amended_describe_query (tn : String) (schema : Option String)
    (conn₁ conn₂ : Connection) :
    (conn₁ (showColumnsQuery tn schema) = conn₂ (showColumnsQuery tn schema) →
      has_table conn₁ tn schema = has_table conn₂ tn schema) ∧
    (conn₁ (showColumnsQuery tn none) = conn₂ (showColumnsQuery tn none) →
      get_columns conn₁ tn schema = get_columns conn₂ tn schema ∧
      get_indexes conn₁ tn schema = get_indexes conn₂ tn schema) ∧
    (∀ s0, schema = some s0 → s0 ≠ "" →
      showColumnsQuery tn schema =
        "SHOW COLUMNS FROM " ++ quote_identifier s0 ++ "." ++
          quote_identifier tn) ∧
    (showColumnsQuery tn none = "SHOW COLUMNS FROM " ++ quote_identifier tn) := by
  refine ⟨?_, ?_, ?_, rfl⟩
  · intro h
    unfold has_table _get_table_columns
    rw [h]
  · intro h
    constructor
    · unfold get_columns _get_table_columns
      rw [h]
    · unfold get_indexes _get_table_columns
      rw [h]
  · intro s0 hs0 hne
    subst hs0
    simp [showColumnsQuery, hne, String.append_assoc]

/-- A connection agreeing with `c2conn2` on the unqualified describe
query but not elsewhere. -/
def c2wconn : Connection := fun q =>
  if q = showColumnsQuery "t" none then ExecResult.rows []
  else ExecResult.dbError (ErrPayload.nonDict "boom")

/-- Witness for the amended C2: agreement on the unqualified query is
enough to make `get_columns` and `get_indexes` agree. -/
theorem c2_witness :
    get_columns c2wconn ("t") (some "s") =
      get_columns c2conn2 ("t") (some "s") ∧
    get_indexes c2wconn ("t") (some "s") =
      get_indexes c2conn2 ("t") (some "s") :=
  (c2_amended_describe_query "t" (some "s") c2wconn c2conn2).2.1 rfl


/-- The locator whose abstract database path is the given segment
list, joined with `/` into the URL's database string. -/
def c4url (segs : List String) (h : Option String) (p : Option Nat)
    (u : Option String) (q : List (String × String)) : URL :=
  { host := h, port := p, username := u, database := joinSlash segs,
    query := q }

/-- C4 as stated: over locators whose database path is a sequence of
slash-free segments (and whose query parameters do not themselves carry
catalog or schema keys), a path of length 0 sets neither catalog nor
schema, length 1 sets only the catalog, length 2 sets catalog and
schema, and longer paths fail with an error message containing the raw
path. -/
def c4AsStated : Prop :=
  ∀ (segs : List String) (h : Option String) (p : Option Nat)
    (u : Option String) (q : List (String × String)),
    (∀ x ∈ segs, ('/' : Char) ∉ x.data) →
    lastLookup q ("catalog") = none →
    lastLookup q ("schema") = none →
    (segs.length = 0 →
      ∃ kw, create_connect_args (c4url segs h p u q) = Except.ok kw ∧
        alistGet kw ("catalog") = none ∧ alistGet kw ("schema") = none) ∧
    (∀ s0, segs = [s0] →
      ∃ kw, create_connect_args (c4url segs h p u q) = Except.ok kw ∧
        alistGet kw ("catalog") = some (PyVal.str s0) ∧
        alistGet kw ("schema") = none) ∧
    (∀ s0 s1, segs = [s0, s1] →
      ∃ kw, create_connect_args (c4url segs h p u q) = Except.ok kw ∧
        alistGet kw ("catalog") = some (PyVal.str s0) ∧
        alistGet kw ("schema") = some (PyVal.str s1)) ∧
    (2 < segs.length →
      ∃ msg, create_connect_args (c4url segs h p u q) = Except.error msg ∧
        ∃ x y, msg = x ++ joinSlash segs ++ y)

/-- C4 counterexample: the zero-length path (empty database string)
does not leave the catalog unset — splitting the empty string yields
one empty segment, so the catalog key is present with value `""`. -/
theorem c4_counterexample : ¬ c4AsStated := by
  intro hC
  obtain ⟨kw, hok, hcat, -⟩ :=
    (hC [] none none none [] (by simp) rfl rfl).1 rfl
  have he : create_connect_args (c4url [] none none none []) =
      Except.ok [("host", PyVal.none_), ("port", PyVal.none_),
        ("username", PyVal.none_), ("catalog", PyVal.str "")] := rfl
  rw [he] at hok
  injection hok with h2
  subst h2
  exact absurd hcat (by decide)

/-- C4 (amended): the split database path always has at least one
segment, so the zero-length path materializes as the single empty
segment — an empty database string sets catalog to `""` and no schema;
length 1 sets catalog to the segment and no schema; length 2 sets
catalog and schema; longer paths fail with an error message containing
the raw path. -/
theorem c4_build_catalog_schema (segs : List String) (h : Option String)
    (p : Option Nat) (u : Option String) (q : List (String × String))
    (hfree : ∀ x ∈ segs, ('/' : Char) ∉ x.data)
    (hqc : lastLookup q ("catalog") = none)
    (hqs : lastLookup q ("schema") = none) :
    (segs = [] →
      ∃ kw, create_connect_args (c4url segs h p u q) = Except.ok kw ∧
        alistGet kw ("catalog") = some (PyVal.str "") ∧
        alistGet kw ("schema") = none) ∧
    (∀ s0, segs = [s0] →
      ∃ kw, create_connect_args (c4url segs h p u q) = Except.ok kw ∧
        alistGet kw ("catalog") = some (PyVal.str s0) ∧
        alistGet kw ("schema") = none) ∧
    (∀ s0 s1, segs = [s0, s1] →
      ∃ kw, create_connect_args (c4url segs h p u q) = Except.ok kw ∧
        alistGet kw ("catalog") = some (PyVal.str s0) ∧
        alistGet kw ("schema") = some (PyVal.str s1)) ∧
    (2 < segs.length →
      ∃ msg, create_connect_args (c4url segs h p u q) = Except.error msg ∧
        ∃ x y, msg = x ++ joinSlash segs ++ y) := by
  refine ⟨?_, ?_, ?_, ?_⟩
  · rintro rfl
    refine ⟨dictSet (dictUpdate
        [("host", optStr h), ("port", optNat p), ("username", optStr u)] q)
        ("catalog") (PyVal.str ""), rfl, ?_, ?_⟩
    · rw [alistGet_dictSet, if_pos rfl]
    · rw [alistGet_dictSet, if_neg (by decide), alistGet_dictUpdate, hqs]
      rfl
  · rintro s0 rfl
    have hsplit : pySplitStr (joinSlash [s0]) = [s0] :=
      pySplitStr_joinSlash [s0] (by simp) hfree
    refine ⟨dictSet (dictUpdate
        [("host", optStr h), ("port", optNat p), ("username", optStr u)] q)
        ("catalog") (PyVal.str s0), ?_, ?_, ?_⟩
    · simp only [create_connect_args, c4url, hsplit]
    · rw [alistGet_dictSet, if_pos rfl]
    · rw [alistGet_dictSet, if_neg (by decide), alistGet_dictUpdate, hqs]
      rfl
  · rintro s0 s1 rfl
    have hsplit : pySplitStr (joinSlash [s0, s1]) = [s0, s1] :=
      pySplitStr_joinSlash [s0, s1] (by simp) hfree
    refine ⟨dictSet (dictSet (dictUpdate
        [("host", optStr h), ("port", optNat p), ("username", optStr u)] q)
        ("catalog") (PyVal.str s0)) ("schema") (PyVal.str s1), ?_, ?_, ?_⟩
    · simp only [create_connect_args, c4url, hsplit]
    · rw [alistGet_dictSet, if_neg (by decide), alistGet_dictSet, if_pos rfl]
    · rw [alistGet_dictSet, if_pos rfl]
  · intro hlen
    have hne : segs ≠ [] := by
      intro h0
      rw [h0] at hlen
      simp at hlen
    have hsplit : pySplitStr (joinSlash segs) = segs :=
      pySplitStr_joinSlash segs hne hfree
    refine ⟨"Unexpected database format " ++ joinSlash segs, ?_,
      "Unexpected database format ", "", by rw [String.append_empty]⟩
    match segs, hlen with
    | a :: b :: c :: rest, _ =>
      simp only [create_connect_args, c4url, hsplit]

/-- Witness for the amended C4 at the two-segment path. -/
theorem c4_witness :
    ∃ kw, create_connect_args (c4url ["cat", "sch"] none none none []) =
        Except.ok kw ∧
      alistGet kw ("catalog") = some (PyVal.str "cat") ∧
      alistGet kw ("schema") = some (PyVal.str "sch") :=
  (c4_build_catalog_schema ["cat", "sch"] none none none []
      (by decide) rfl rfl).2.2.1 "cat" "sch" rfl

end PyHivePresto
